import Mathlib

/-!
Verification of the metrics query, aggregation, and alerting core of the
cloudence repository, as a shallow embedding in Lean 4.

Embedded source files:
* src/explore/advanced-k8s-monitoring-agent.py  (AlertManager, BaseMetric)
* src/explore/k8s-ai-agent-main.py              (TTL cache)
* src/explore/dashboards/enhanced-dashboard-fetcher.py (QueryExecutor)
* src/explore/enhanced-stackdriver-ai-agent.py  (prioritizer, dedup)

Modelling conventions: Python floats are embedded as rationals (the claims
under study concern order and exact equality, not rounding); Python dicts
used as string-keyed maps are embedded as functions into Option or as
association lists; a method that mutates `self` is embedded as a function
from the old state to the new state; the awaited alert callback is embedded
by returning the list of alert payloads passed to it.
-/

/-! ## Alert Engine (src/explore/advanced-k8s-monitoring-agent.py) -/

/-- `AlertConfig` dataclass: threshold, comparison ('gt' | 'lt' | 'eq'),
window_minutes, description.  The `callback` field is not part of the state;
callback invocations are reported in the result of `check_alert`. -/
structure AlertConfig where
  threshold : ℚ
  comparison : String
  window_minutes : ℤ
  description : String
deriving DecidableEq

/-- The dict appended to `alert_history` (and passed to the callback) by
`AlertManager.check_alert` when a rule fires. -/
structure AlertInfo where
  metric : String
  value : ℚ
  threshold : ℚ
  timestamp : String
  description : String
deriving DecidableEq

/-- `AlertManager` state: `alerts` is the rule dict keyed by metric name,
`alert_history` the list of fired alert dicts. -/
structure AlertManager where
  alerts : String → Option AlertConfig
  alert_history : List AlertInfo

/-- `AlertManager.add_alert`: plain dict assignment `self.alerts[metric_name] = config`. -/
def add_alert (st : AlertManager) (metric_name : String) (config : AlertConfig) : AlertManager :=
  { st with alerts := fun n => if n = metric_name then some config else st.alerts n }

/-- The `should_alert` flag computed inside `AlertManager.check_alert`:
the if/elif chain over the comparison string. -/
def shouldAlert (config : AlertConfig) (value : ℚ) : Bool :=
  if config.comparison = "gt" ∧ value > config.threshold then true
  else if config.comparison = "lt" ∧ value < config.threshold then true
  else if config.comparison = "eq" ∧ value = config.threshold then true
  else false

/-- `AlertManager.check_alert`: returns the optional alert dict, the new
manager state, and the list of payloads passed to the callback.  `now`
stands for `datetime.utcnow().isoformat()`. -/
def check_alert (st : AlertManager) (metric_name : String) (value : ℚ) (now : String) :
    Option AlertInfo × AlertManager × List AlertInfo :=
  match st.alerts metric_name with
  | none => (none, st, [])
  | some config =>
    if shouldAlert config value then
      let alert_info : AlertInfo :=
        { metric := metric_name, value := value, threshold := config.threshold,
          timestamp := now, description := config.description }
      (some alert_info,
       { st with alert_history := st.alert_history ++ [alert_info] },
       [alert_info])
    else (none, st, [])

/-! ## Theorems for the alert engine claims -/

/-- C1: with a registered rule, evaluation fires exactly when the
comparator holds (gt iff value > threshold, lt iff value < threshold,
eq iff value = threshold); a fired event carries the evaluated value and
the rule threshold; a non-qualifying value yields an empty result. -/
theorem check_alert_comparator (st : AlertManager) (m : String) (v : ℚ) (now : String)
    (cfg : AlertConfig) (h : st.alerts m = some cfg) :
    (cfg.comparison = "gt" → (((check_alert st m v now).1 ≠ none) ↔ v > cfg.threshold)) ∧
    (cfg.comparison = "lt" → (((check_alert st m v now).1 ≠ none) ↔ v < cfg.threshold)) ∧
    (cfg.comparison = "eq" → (((check_alert st m v now).1 ≠ none) ↔ v = cfg.threshold)) ∧
    (∀ a, (check_alert st m v now).1 = some a → a.value = v ∧ a.threshold = cfg.threshold) ∧
    (shouldAlert cfg v = false → (check_alert st m v now).1 = none) := by
  refine ⟨?_, ?_, ?_, ?_, ?_⟩
  · intro hgt
    simp only [check_alert, h, shouldAlert, hgt]
    by_cases hv : v > cfg.threshold <;> simp [hv]
  · intro hlt
    have hne : cfg.comparison ≠ "gt" := by simp [hlt]
    simp only [check_alert, h, shouldAlert, hlt]
    by_cases hv : v < cfg.threshold <;> simp [hv, hne]
  · intro heq
    have hne : cfg.comparison ≠ "gt" := by simp [heq]
    have hne2 : cfg.comparison ≠ "lt" := by simp [heq]
    simp only [check_alert, h, shouldAlert, heq]
    by_cases hv : v = cfg.threshold <;> simp [hv, hne, hne2]
  · intro a ha
    simp only [check_alert, h] at ha
    by_cases hs : shouldAlert cfg v = true
    · simp only [hs, if_pos] at ha
      cases ha
      exact ⟨rfl, rfl⟩
    · simp [hs] at ha
  · intro hs
    simp [check_alert, h, hs]

/-- Concrete manager with the spec scenario rule threshold=80, comparator=gt. -/
def cpuConfig : AlertConfig :=
  { threshold := 80, comparison := "gt", window_minutes := 5,
    description := "CPU utilization above 80 percent" }

/-- A manager holding only the cpu rule, with empty history. -/
def cpuManager : AlertManager :=
  { alerts := fun n => if n = "cpu" then some cpuConfig else none, alert_history := [] }

theorem check_alert_comparator_witness :
    ((check_alert cpuManager "cpu" 85 "t").1 ≠ none) ∧
    ((check_alert cpuManager "cpu" 79 "t").1 = none) := by
  have h85 := check_alert_comparator cpuManager "cpu" 85 "t" cpuConfig rfl
  have h79 := check_alert_comparator cpuManager "cpu" 79 "t" cpuConfig rfl
  exact ⟨(h85.1 rfl).mpr (by decide), h79.2.2.2.2 (by decide)⟩

/-- C8: registering a rule for a metric that already has one replaces the
prior rule entirely: the rule table maps the metric to the new config, and
a subsequent evaluation is determined by the new config alone (the prior
state, hence any old threshold, does not occur on the right hand side). -/
theorem add_alert_replaces (st : AlertManager) (m : String) (cfg : AlertConfig)
    (v : ℚ) (now : String) :
    ((add_alert st m cfg).alerts m = some cfg) ∧
    ((check_alert (add_alert st m cfg) m v now).1 =
      if shouldAlert cfg v then
        some { metric := m, value := v, threshold := cfg.threshold,
               timestamp := now, description := cfg.description }
      else none) := by
  constructor
  · simp [add_alert]
  · have hl : (add_alert st m cfg).alerts m = some cfg := by simp [add_alert]
    simp only [check_alert, hl]
    by_cases hs : shouldAlert cfg v = true <;> simp [hs]

/-- C9: evaluating a metric with no registered rule is a no-op: the result
is empty, the manager state (rule table and history) is unchanged, and no
callback payload is produced. -/
theorem check_alert_no_rule (st : AlertManager) (m : String) (v : ℚ) (now : String)
    (h : st.alerts m = none) :
    check_alert st m v now = (none, st, []) := by
  simp [check_alert, h]

/-- An empty manager: no rules, no history. -/
def emptyManager : AlertManager :=
  { alerts := fun _ => none, alert_history := [] }

theorem check_alert_no_rule_witness :
    check_alert emptyManager "cpu" 99 "t" = (none, emptyManager, []) :=
  check_alert_no_rule emptyManager "cpu" 99 "t" rfl

/-! ## Bounded historical data (BaseMetric.store_historical_data) versus
the unbounded alert history (AlertManager.alert_history) -/

/-- One entry of `BaseMetric.historical_data`: a timestamp plus the stored
data payload (the payload type is abstracted as a type parameter). -/
structure HistEntry (δ : Type) where
  timestamp : String
  data : δ
deriving DecidableEq

/-- The `historical_data` buffer of `BaseMetric` (the only state the
embedded method reads or writes). -/
structure BaseMetricState (δ : Type) where
  historical_data : List (HistEntry δ)
deriving DecidableEq

/-- `BaseMetric.store_historical_data`: append the new entry, then if the
length exceeds 1000, `pop(0)` removes the oldest entry. -/
def store_historical_data (st : BaseMetricState δ) (now : String) (d : δ) :
    BaseMetricState δ :=
  let hd := st.historical_data ++ [{ timestamp := now, data := d }]
  if 1000 < hd.length then { historical_data := hd.drop 1 }
  else { historical_data := hd }


/-- Helper: the history written by a qualifying `check_alert` evaluation is
the old history with the new event appended at the end. -/
theorem check_alert_fires_history (st : AlertManager) (m : String) (v : ℚ) (now : String)
    (cfg : AlertConfig) (hr : st.alerts m = some cfg) (hf : shouldAlert cfg v = true) :
    (check_alert st m v now).2.1.alert_history =
      st.alert_history ++
        [{ metric := m, value := v, threshold := cfg.threshold,
           timestamp := now, description := cfg.description }] := by
  simp [check_alert, hr, hf]

/-- Helper: the buffer written by `store_historical_data`, with the guard
condition expressed over the input length. -/
theorem store_historical_data_eq (st : BaseMetricState δ) (t2 : String) (d : δ) :
    (store_historical_data st t2 d).historical_data =
      if 1000 < st.historical_data.length + 1
      then (st.historical_data ++ [({ timestamp := t2, data := d } : HistEntry δ)]).drop 1
      else st.historical_data ++ [({ timestamp := t2, data := d } : HistEntry δ)] := by
  simp only [store_historical_data, List.length_append, List.length_singleton]
  split <;> rfl

/-- A fixed alert payload used to build a concrete long history. -/
def someAlertInfo : AlertInfo :=
  { metric := "cpu", value := 99, threshold := 80, timestamp := "t0",
    description := "CPU utilization above 80 percent" }

/-- A manager holding the cpu rule and an alert history already at the
1000-entry mark (1000 is the only history cap anywhere in the source). -/
def fullHistoryManager : AlertManager :=
  { alerts := fun n => if n = "cpu" then some cpuConfig else none,
    alert_history := List.replicate 1000 someAlertInfo }

/-- C6 counterexample: from a history already holding 1000 events, one more
qualifying evaluation grows `alert_history` to 1001 entries and the oldest
event is still at the front — `check_alert` enforces no cap and evicts
nothing, contradicting the claimed bounded, oldest-evict history. -/
theorem alert_history_unbounded_counterexample :
    ((check_alert fullHistoryManager "cpu" 85 "t1").2.1.alert_history.length = 1001) ∧
    ((check_alert fullHistoryManager "cpu" 85 "t1").2.1.alert_history.head? =
      some someAlertInfo) := by
  rw [check_alert_fires_history fullHistoryManager "cpu" 85 "t1" cpuConfig rfl (by decide)]
  have hh : fullHistoryManager.alert_history = List.replicate 1000 someAlertInfo := rfl
  constructor
  · rw [hh, List.length_append, List.length_replicate]
    simp
  · rw [hh, show (1000 : ℕ) = 999 + 1 from rfl, List.replicate_succ, List.cons_append,
      List.head?_cons]

/-- C6 amended: a qualifying `check_alert` evaluation appends its event to
`alert_history` with no eviction (the history grows without bound), while
the bounded oldest-evict buffer in the source is
`BaseMetric.store_historical_data`: starting at or below 1000 entries it
stays at or below 1000, the stored entry is always appended at the end, and
at exactly 1000 entries the oldest entry is evicted. -/
theorem history_bounds (st : AlertManager) (m : String) (v : ℚ) (now : String)
    (cfg : AlertConfig) (hr : st.alerts m = some cfg) (hf : shouldAlert cfg v = true)
    {δ : Type} (bst : BaseMetricState δ) (t2 : String) (d : δ)
    (hb : bst.historical_data.length ≤ 1000) :
    ((check_alert st m v now).2.1.alert_history =
      st.alert_history ++
        [{ metric := m, value := v, threshold := cfg.threshold,
           timestamp := now, description := cfg.description }]) ∧
    ((store_historical_data bst t2 d).historical_data.length ≤ 1000) ∧
    ((store_historical_data bst t2 d).historical_data.getLast? =
      some { timestamp := t2, data := d }) ∧
    (bst.historical_data.length = 1000 →
      (store_historical_data bst t2 d).historical_data =
        bst.historical_data.tail ++ [{ timestamp := t2, data := d }]) := by
  refine ⟨check_alert_fires_history st m v now cfg hr hf, ?_, ?_, ?_⟩
  · rw [store_historical_data_eq]
    by_cases hlen : 1000 < bst.historical_data.length + 1
    · rw [if_pos hlen]
      simp only [List.length_drop, List.length_append, List.length_singleton]
      omega
    · rw [if_neg hlen]
      simp only [List.length_append, List.length_singleton]
      omega
  · rw [store_historical_data_eq]
    by_cases hlen : 1000 < bst.historical_data.length + 1
    · rw [if_pos hlen]
      cases hcase : bst.historical_data with
      | nil => rw [hcase] at hlen; simp at hlen
      | cons a l => simp [List.getLast?_concat]
    · rw [if_neg hlen, List.getLast?_concat]
  · intro h1000
    rw [store_historical_data_eq, if_pos (by omega)]
    cases hcase : bst.historical_data with
    | nil => rw [hcase] at h1000; simp at h1000
    | cons a l => simp

theorem history_bounds_witness :
    ((check_alert cpuManager "cpu" 85 "t").2.1.alert_history =
      [{ metric := "cpu", value := 85, threshold := cpuConfig.threshold,
         timestamp := "t", description := cpuConfig.description }]) ∧
    ((store_historical_data (⟨[]⟩ : BaseMetricState ℚ) "t" 7).historical_data.length ≤ 1000) := by
  have h := history_bounds cpuManager "cpu" 85 "t" cpuConfig rfl (by decide)
    (⟨[]⟩ : BaseMetricState ℚ) "t" 7 (by simp)
  refine ⟨?_, h.2.1⟩
  have h1 := h.1
  simpa [cpuManager] using h1

/-! ## TTL Cache (src/explore/k8s-ai-agent-main.py, KubernetesAIAgent) -/

/-- The four cache namespaces created by `_init_cache`. -/
def declaredNamespaces : List String := ["metrics", "resources", "events", "analysis"]

/-- Cache state: `cache` is the outer dict (namespace to inner key/value
dict), `cache_timeout` the TTL in seconds, `cache_timestamps` the dict
keyed by the string `cache_type ++ ":" ++ key`.  Times are rationals
standing for seconds since an epoch; `datetime.now()` is passed in as the
`now` argument. -/
structure CacheState (α : Type) where
  cache : String → Option (String → Option α)
  cache_timeout : ℚ
  cache_timestamps : String → Option ℚ

/-- `_init_cache`: the outer dict holds exactly the four declared
namespaces, each mapped to an empty inner dict; timestamps start empty. -/
def init_cache (α : Type) (timeout : ℚ) : CacheState α :=
  { cache := fun ns => if ns ∈ declaredNamespaces then some (fun _ => none) else none,
    cache_timeout := timeout,
    cache_timestamps := fun _ => none }

/-- The timestamp dict key built by `_cache_get` and `_cache_set`. -/
def tsKey (cache_type key : String) : String := cache_type ++ ":" ++ key

/-- `_cache_get`: None when the namespace is not in the outer dict, when no
timestamp was recorded for the entry, or when the entry is older than the
timeout; otherwise the inner dict lookup.  (`if not timestamp` in the
source tests for absence: stored timestamps are datetime objects, which are
never falsy.) -/
def cache_get (st : CacheState α) (cache_type key : String) (now : ℚ) : Option α :=
  match st.cache cache_type with
  | none => none
  | some inner =>
    match st.cache_timestamps (tsKey cache_type key) with
    | none => none
    | some ts => if now - ts > st.cache_timeout then none else inner key

/-- `_cache_set`: silently returns when the namespace is not in the outer
dict; otherwise writes the value into the inner dict and records the
timestamp. -/
def cache_set (st : CacheState α) (cache_type key : String) (v : α) (now : ℚ) :
    CacheState α :=
  match st.cache cache_type with
  | none => st
  | some inner =>
    { st with
      cache := fun ns =>
        if ns = cache_type then some (fun k => if k = key then some v else inner k)
        else st.cache ns,
      cache_timestamps := fun s =>
        if s = tsKey cache_type key then some now else st.cache_timestamps s }

/-- C2 counterexample: for the namespace "foo" (outside the four declared
ones) a set followed by an immediate get returns None, not the stored
value, so the set-then-get round trip fails for arbitrary namespaces. -/
theorem cache_roundtrip_counterexample :
    (cache_get (cache_set (init_cache ℕ 300) "foo" "k" 7 0) "foo" "k" 0 = none) ∧
    (cache_get (cache_set (init_cache ℕ 300) "foo" "k" 7 0) "foo" "k" 0 ≠ some 7) := by
  constructor <;> decide

/-- C2 amended: for a namespace present in the outer cache dict (under
`_init_cache`, exactly the four declared namespaces), a set followed by a
get within the timeout returns the stored value; once more time than the
timeout has elapsed the entry reads as None; and an entry whose timestamp
was never recorded reads as None. -/
theorem cache_ttl_roundtrip (α : Type) (st : CacheState α) (ns k : String) (v : α)
    (t1 t2 : ℚ) (hns : (st.cache ns).isSome) :
    (t2 - t1 ≤ st.cache_timeout →
      cache_get (cache_set st ns k v t1) ns k t2 = some v) ∧
    (t2 - t1 > st.cache_timeout →
      cache_get (cache_set st ns k v t1) ns k t2 = none) ∧
    (st.cache_timestamps (tsKey ns k) = none → cache_get st ns k t2 = none) := by
  obtain ⟨inner, hinner⟩ := Option.isSome_iff_exists.mp hns
  refine ⟨?_, ?_, ?_⟩
  · intro hfresh
    have hts : ¬ (t2 - t1 > st.cache_timeout) := not_lt.mpr hfresh
    simp [cache_set, hinner, cache_get, hts]
  · intro hstale
    simp [cache_set, hinner, cache_get, hstale]
  · intro hnots
    simp only [cache_get, hinner, hnots]

theorem cache_ttl_roundtrip_witness :
    (cache_get (cache_set (init_cache ℕ 300) "metrics" "k" 7 0) "metrics" "k" 100 = some 7) ∧
    (cache_get (cache_set (init_cache ℕ 300) "metrics" "k" 7 0) "metrics" "k" 301 = none) ∧
    (cache_get (init_cache ℕ 300) "metrics" "k" 0 = none) := by
  have h := cache_ttl_roundtrip ℕ (init_cache ℕ 300) "metrics" "k" 7 0 100 (by decide)
  have h2 := cache_ttl_roundtrip ℕ (init_cache ℕ 300) "metrics" "k" 7 0 301 (by decide)
  exact ⟨h.1 (by norm_num [init_cache]), h2.2.1 (by norm_num [init_cache]), h2.2.2 rfl⟩

/-- C10: a namespace outside the four declared ones is absent from the
outer dict at initialization and stays absent under any set; for such a
namespace every `cache_set` is a silent no-op (the state is unchanged) and
every `cache_get` returns None. -/
theorem cache_undeclared_namespace (α : Type) (timeout : ℚ) (ns : String)
    (hns : ns ∉ declaredNamespaces) :
    ((init_cache α timeout).cache ns = none) ∧
    (∀ st : CacheState α, st.cache ns = none →
      (∀ k v now, cache_set st ns k v now = st) ∧
      (∀ k now, cache_get st ns k now = none) ∧
      (∀ ns2 k v now, (cache_set st ns2 k v now).cache ns = none)) := by
  refine ⟨by simp [init_cache, hns], ?_⟩
  intro st hnone
  refine ⟨?_, ?_, ?_⟩
  · intro k v now
    simp [cache_set, hnone]
  · intro k now
    simp [cache_get, hnone]
  · intro ns2 k v now
    rcases h2 : st.cache ns2 with _ | inner
    · simp [cache_set, h2, hnone]
    · have hne : ns ≠ ns2 := by
        intro he
        rw [he, h2] at hnone
        exact Option.noConfusion hnone
      simp [cache_set, h2, hne, hnone]

theorem cache_undeclared_namespace_witness :
    ((init_cache ℕ 300).cache "foo" = none) ∧
    (cache_set (init_cache ℕ 300) "foo" "k" 7 0 = init_cache ℕ 300) ∧
    (cache_get (init_cache ℕ 300) "foo" "k" 0 = none) := by
  have h := cache_undeclared_namespace ℕ 300 "foo" (by decide)
  have h2 := h.2 (init_cache ℕ 300) h.1
  exact ⟨h.1, (h2.1 "k" 7 0), h2.2.1 "k" 0⟩

/-! ## Query executor (src/explore/dashboards/enhanced-dashboard-fetcher.py) -/

/-- The value carried by a processed time-series point, as produced by
`_extract_point_value`: a number (Python int or float), the distribution
dict, or None. -/
inductive PointValue where
  | num (q : ℚ)
  | dist (count : ℤ) (mean : ℚ) (sum_of_squared_deviation : ℚ)
  | null
deriving DecidableEq

/-- The numeric projection used by the reduction value filter
`isinstance(point.value, (int, float))`. -/
def numericValue : PointValue → Option ℚ
  | .num q => some q
  | _ => none

/-- A processed point dict: `timestamp` (the ISO string of the interval
end) and `value`.  (The `interval` sub-dict duplicates the two timestamp
strings and is never read downstream; it is not modelled.) -/
structure ProcPoint where
  timestamp : String
  value : PointValue
deriving DecidableEq

/-- The metadata attached to a processed series: either the full metadata
dict built in `_process_time_series_response` (with the optional
`group_key`) or the reducer-only dict built in
`_apply_cross_series_reduction`. -/
inductive SeriesMetadata where
  | full (metricType : String) (metricLabels : List (String × String))
      (resourceType : String) (resourceLabels : List (String × String))
      (group_key : Option (List (Option String)))
  | reduced (reducer : String)
deriving DecidableEq

/-- One entry of the processed `time_series_data` list. -/
structure ProcSeries where
  metadata : SeriesMetadata
  points : List ProcPoint
deriving DecidableEq

/-- The raw value of one sample point in the collector response. -/
inductive RawValue where
  | double (q : ℚ)
  | int64 (z : ℤ)
  | distribution (count : ℤ) (mean : ℚ) (sum_of_squared_deviation : ℚ)
  | unset
deriving DecidableEq

/-- One raw point of the collector response. -/
structure RawPoint where
  start_time : String
  end_time : String
  value : RawValue
deriving DecidableEq

/-- One raw time series of the collector response. -/
structure RawSeries where
  metricType : String
  metricLabels : List (String × String)
  resourceType : String
  resourceLabels : List (String × String)
  points : List RawPoint
deriving DecidableEq

/-- `_extract_point_value`: doubles and int64s become numbers, a
distribution becomes the three-field dict, anything else None. -/
def extractPointValue : RawValue → PointValue
  | .double q => .num q
  | .int64 z => .num (z : ℚ)
  | .distribution c m s => .dist c m s
  | .unset => .null

/-- The query options consulted by the embedded processing code
(`group_by_fields` and `cross_series_reducer`; the time interval,
aggregation and filters only shape the external request). -/
structure QueryOptions where
  group_by_fields : Option (List String)
  cross_series_reducer : Option String
deriving DecidableEq

/-- `_reduce_values`: None on an empty list or an unknown reducer name,
otherwise arithmetic mean / maximum / minimum / sum of the list. -/
def reduceValues (values : List ℚ) (reducer : String) : Option ℚ :=
  if values = [] then none
  else if reducer = "REDUCE_MEAN" then some (values.sum / values.length)
  else if reducer = "REDUCE_MAX" then values.max?
  else if reducer = "REDUCE_MIN" then values.min?
  else if reducer = "REDUCE_SUM" then some values.sum
  else none

/-- The sorted deduplicated timestamp list `sorted(set(...))` built in
`_apply_cross_series_reduction`. -/
def allTimestamps (time_series_data : List ProcSeries) : List String :=
  List.insertionSort (fun a b : String => a ≤ b)
    ((time_series_data.flatMap (fun s => s.points.map (fun p => p.timestamp))).dedup)

/-- The numeric value list collected for one timestamp in
`_apply_cross_series_reduction`: every point of every series whose
timestamp matches and whose value is an int or float. -/
def valuesAt (time_series_data : List ProcSeries) (timestamp : String) : List ℚ :=
  time_series_data.flatMap (fun s =>
    s.points.filterMap (fun p =>
      if p.timestamp = timestamp then numericValue p.value else none))

/-- `_apply_cross_series_reduction`: empty input yields an empty list;
otherwise one output series whose metadata is the reducer-only dict and
whose points are, for each timestamp with a non-empty numeric value list,
the reduced value (None when the reducer name is unknown). -/
def applyCrossSeriesReduction (time_series_data : List ProcSeries) (reducer : String) :
    List ProcSeries :=
  if time_series_data = [] then []
  else
    let reduced_points := (allTimestamps time_series_data).filterMap (fun t =>
      let values := valuesAt time_series_data t
      if values = [] then none
      else some { timestamp := t,
                  value := match reduceValues values reducer with
                           | some q => PointValue.num q
                           | none => PointValue.null })
    [{ metadata := .reduced reducer, points := reduced_points }]

/-- `_process_time_series_response`: build one processed series per raw
series (points keep the interval end time as their timestamp; metadata
gains a `group_key` when `group_by_fields` is set, projecting missing
labels to None), then apply cross-series reduction when a reducer is
configured. -/
def processTimeSeriesResponse (response : List RawSeries) (options : QueryOptions) :
    List ProcSeries :=
  let time_series_data := response.map (fun ts =>
    { metadata := SeriesMetadata.full ts.metricType ts.metricLabels
        ts.resourceType ts.resourceLabels
        (options.group_by_fields.map (fun fields =>
          fields.map (fun f => ts.metricLabels.lookup f))),
      points := ts.points.map (fun p =>
        { timestamp := p.end_time, value := extractPointValue p.value }) })
  match options.cross_series_reducer with
  | some reducer => applyCrossSeriesReduction time_series_data reducer
  | none => time_series_data

/-- `execute_query`: the external collector call is passed in as its
outcome.  The try/except around the whole body turns any failure into the
empty result plus the printed error line (second component: the error
channel); a successful fetch is processed normally with no error output. -/
def execute_query (fetchResult : Except String (List RawSeries)) (options : QueryOptions) :
    List ProcSeries × List String :=
  match fetchResult with
  | .error e => ([], ["Error executing query: " ++ e])
  | .ok response => (processTimeSeriesResponse response options, [])

/-- Helper: the numeric value list at a timestamp is non-empty exactly when
some series has a point there whose value is an int or float. -/
theorem valuesAt_ne_nil_iff (data : List ProcSeries) (t : String) :
    valuesAt data t ≠ [] ↔
      ∃ s ∈ data, ∃ p ∈ s.points, p.timestamp = t ∧ (numericValue p.value).isSome := by
  rw [Ne, List.eq_nil_iff_forall_not_mem]
  push_neg
  constructor
  · rintro ⟨q, hq⟩
    simp only [valuesAt, List.mem_flatMap, List.mem_filterMap] at hq
    obtain ⟨s, hs, p, hp, hpq⟩ := hq
    by_cases ht : p.timestamp = t
    · rw [if_pos ht] at hpq
      exact ⟨s, hs, p, hp, ht, by simp [hpq]⟩
    · rw [if_neg ht] at hpq
      exact absurd hpq (by simp)
  · rintro ⟨s, hs, p, hp, ht, hnum⟩
    obtain ⟨q, hq⟩ := Option.isSome_iff_exists.mp hnum
    refine ⟨q, ?_⟩
    simp only [valuesAt, List.mem_flatMap, List.mem_filterMap]
    exact ⟨s, hs, p, hp, by rw [if_pos ht, hq]⟩

/-- Helper: membership in the sorted deduplicated timestamp list. -/
theorem mem_allTimestamps (data : List ProcSeries) (t : String) :
    t ∈ allTimestamps data ↔ ∃ s ∈ data, ∃ p ∈ s.points, p.timestamp = t := by
  rw [allTimestamps, (List.perm_insertionSort _ _).mem_iff, List.mem_dedup]
  simp only [List.mem_flatMap, List.mem_map]

/-- C3 amended: for a non-empty input, cross-series reduction returns one
series tagged with the reducer, holding a point exactly at each timestamp
at which at least one member series has a numeric (int or float) point —
a timestamp whose values are all non-numeric gets no output point — and at
each emitted timestamp the value is the arithmetic mean / maximum /
minimum / sum of the numeric value set there, non-numeric values having
been excluded from that set rather than failing. -/
theorem applyCrossSeriesReduction_spec (data : List ProcSeries) (reducer : String)
    (hne : data ≠ []) :
    ∃ pts : List ProcPoint,
      applyCrossSeriesReduction data reducer =
        [{ metadata := .reduced reducer, points := pts }] ∧
      (∀ t : String,
        ((∃ p ∈ pts, p.timestamp = t) ↔
          (∃ s ∈ data, ∃ p ∈ s.points, p.timestamp = t ∧ (numericValue p.value).isSome))) ∧
      (∀ t : String, ∀ p ∈ pts, p.timestamp = t →
        (reducer = "REDUCE_MEAN" →
          p.value = .num ((valuesAt data t).sum / (valuesAt data t).length)) ∧
        (reducer = "REDUCE_MAX" →
          ∃ m, p.value = .num m ∧ m ∈ valuesAt data t ∧ ∀ v ∈ valuesAt data t, v ≤ m) ∧
        (reducer = "REDUCE_MIN" →
          ∃ m, p.value = .num m ∧ m ∈ valuesAt data t ∧ ∀ v ∈ valuesAt data t, m ≤ v) ∧
        (reducer = "REDUCE_SUM" → p.value = .num (valuesAt data t).sum)) := by
  refine ⟨_, by rw [applyCrossSeriesReduction, if_neg hne], ?_, ?_⟩
  · intro t
    constructor
    · rintro ⟨p, hp, ht⟩
      obtain ⟨t0, ht0, hf⟩ := List.mem_filterMap.mp hp
      by_cases hv : valuesAt data t0 = []
      · rw [if_pos hv] at hf
        exact absurd hf (by simp)
      · rw [if_neg hv] at hf
        have hpt : p.timestamp = t0 := by cases hf; rfl
        rw [← ht, hpt]
        exact (valuesAt_ne_nil_iff data t0).mp hv
    · intro hcov
      have hvne : valuesAt data t ≠ [] := (valuesAt_ne_nil_iff data t).mpr hcov
      have htmem : t ∈ allTimestamps data := by
        obtain ⟨s, hs, p, hp, ht, _⟩ := hcov
        exact (mem_allTimestamps data t).mpr ⟨s, hs, p, hp, ht⟩
      exact ⟨{ timestamp := t,
               value := match reduceValues (valuesAt data t) reducer with
                        | some q => PointValue.num q
                        | none => PointValue.null },
             List.mem_filterMap.mpr ⟨t, htmem, by rw [if_neg hvne]⟩, rfl⟩
  · intro t p hp ht
    obtain ⟨t0, ht0, hf⟩ := List.mem_filterMap.mp hp
    by_cases hv : valuesAt data t0 = []
    · rw [if_pos hv] at hf
      exact absurd hf (by simp)
    · rw [if_neg hv] at hf
      have hpt : p.timestamp = t0 := by cases hf; rfl
      have htt : t0 = t := by rw [← ht, hpt]
      subst htt
      have hval : p.value = match reduceValues (valuesAt data t0) reducer with
          | some q => PointValue.num q
          | none => PointValue.null := by cases hf; rfl
      obtain ⟨x, hx⟩ := List.exists_mem_of_ne_nil _ hv
      refine ⟨?_, ?_, ?_, ?_⟩
      · intro hr
        subst hr
        rw [hval]
        simp [reduceValues, hv]
      · intro hr
        subst hr
        obtain ⟨m, hm⟩ := Option.isSome_iff_exists.mp (List.isSome_max?_of_mem hx)
        haveI anti : Std.Antisymm ((· : ℚ) ≤ ·) := ⟨fun h1 h2 => le_antisymm h1 h2⟩
        have hprop := (List.max?_eq_some_iff (fun a : ℚ => le_refl a)
          (fun a b => max_choice a b) (fun _ _ _ => max_le_iff)).mp hm
        refine ⟨m, ?_, hprop.1, hprop.2⟩
        rw [hval]
        simp [reduceValues, hv, hm]
      · intro hr
        subst hr
        obtain ⟨m, hm⟩ := Option.isSome_iff_exists.mp (List.isSome_min?_of_mem hx)
        haveI anti : Std.Antisymm ((· : ℚ) ≤ ·) := ⟨fun h1 h2 => le_antisymm h1 h2⟩
        have hprop := (List.min?_eq_some_iff (fun a : ℚ => le_refl a)
          (fun a b => min_choice a b) (fun _ _ _ => le_min_iff)).mp hm
        refine ⟨m, ?_, hprop.1, hprop.2⟩
        rw [hval]
        simp [reduceValues, hv, hm]
      · intro hr
        subst hr
        rw [hval]
        simp [reduceValues, hv]

/-- A series whose only point at its timestamp carries a distribution
value, which the numeric filter excludes. -/
def distOnlySeries : ProcSeries :=
  { metadata := .full "m" [] "r" [] none,
    points := [{ timestamp := "2024-01-01T00:00:00Z", value := .dist 3 5 0 }] }

/-- C3 counterexample: the timestamp of `distOnlySeries` appears in a
member series, yet cross-series reduction emits no point there (its only
value is non-numeric and is excluded, leaving an empty value set), so an
output point is not emitted at every timestamp covered by some series. -/
theorem reduction_missing_timestamp_counterexample :
    (∃ s ∈ [distOnlySeries], ∃ p ∈ s.points, p.timestamp = "2024-01-01T00:00:00Z") ∧
    (applyCrossSeriesReduction [distOnlySeries] "REDUCE_MEAN" =
      [{ metadata := .reduced "REDUCE_MEAN", points := [] }]) := by
  constructor
  · exact ⟨distOnlySeries, by simp,
      { timestamp := "2024-01-01T00:00:00Z", value := .dist 3 5 0 },
      by simp [distOnlySeries], rfl⟩
  · rfl

/-- A series with one numeric point, echoing the spec scenario. -/
def numSeries : ProcSeries :=
  { metadata := .full "m" [] "r" [] none,
    points := [{ timestamp := "t1", value := .num 10 }] }

theorem applyCrossSeriesReduction_spec_witness :
    ∃ pts : List ProcPoint,
      applyCrossSeriesReduction [numSeries] "REDUCE_MEAN" =
        [{ metadata := .reduced "REDUCE_MEAN", points := pts }] ∧
      ∃ p ∈ pts, p.timestamp = "t1" := by
  obtain ⟨pts, h1, h2, _⟩ :=
    applyCrossSeriesReduction_spec [numSeries] "REDUCE_MEAN" (by simp)
  refine ⟨pts, h1, (h2 "t1").mpr ?_⟩
  exact ⟨numSeries, by simp, { timestamp := "t1", value := .num 10 },
    by simp [numSeries], rfl, by simp [numericValue]⟩

/-- C7: a failed collector fetch yields the empty result plus the reported
error line (never a propagated exception), and a successful fetch with an
empty response yields an empty series list with no error, whether or not a
cross-series reducer is configured. -/
theorem execute_query_error_handling (e : String) (options : QueryOptions) :
    (execute_query (.error e) options = ([], ["Error executing query: " ++ e])) ∧
    (execute_query (.ok []) options = ([], [])) := by
  refine ⟨rfl, ?_⟩
  simp only [execute_query, processTimeSeriesResponse, List.map_nil]
  rcases hr : options.cross_series_reducer with _ | r
  · rfl
  · simp [applyCrossSeriesReduction]

/-! ## Alert prioritizer and deduplicator
(src/explore/enhanced-stackdriver-ai-agent.py) -/

/-- The alert dict flowing through `generate_alerts`.  The builder
functions are absent from the source; the fields are the ones consulted by
`_calculate_alert_priority` (severity, impact_score, frequency, service),
the spec deduplication key (metric identity, service, severity) and the
spec ordering tie-breaker (`fired_at`).  An absent optional field models
the corresponding dict key being missing. -/
structure Alert where
  severity : String
  metric : String
  service : Option String
  impact_score : Option ℚ
  frequency : Option ℚ
  fired_at : ℚ
  description : String
deriving DecidableEq

/-- The `severity_scores` dict of `_calculate_alert_priority`. -/
def severity_scores : List (String × ℚ) :=
  [("CRITICAL", 1), ("HIGH", 4/5), ("MEDIUM", 3/5), ("LOW", 2/5), ("INFO", 1/5)]

/-- `_calculate_alert_priority`: base score from the severity (default 0.2
for an unknown name), multiplied by the impact factor when the key is
present, the capped frequency factor when present, and the service
criticality (default 1.0) when present.  `service_criticality` is the
dict read from the agent configuration. -/
def calculate_alert_priority (service_criticality : List (String × ℚ)) (alert : Alert) : ℚ :=
  let base_score := (severity_scores.lookup alert.severity).getD (1/5)
  let base_score := match alert.impact_score with
    | some i => base_score * (1 + i)
    | none => base_score
  let base_score := match alert.frequency with
    | some f => base_score * (1 + min (f / 100) 1)
    | none => base_score
  match alert.service with
  | some s => base_score * ((service_criticality.lookup s).getD 1)
  | none => base_score

/-- Python comparison of two `(score, alert_dict)` tuples, as performed by
`scored_alerts.sort(reverse=True)`: when the scores differ the result is
the score comparison; when they are equal the tuple comparison falls
through to the dicts, which compare equal or raise TypeError (dicts are
unordered in Python 3). -/
def pyTupleLt (p q : ℚ × Alert) : Except String Bool :=
  if p.1 = q.1 then
    if p.2 = q.2 then .ok false
    else .error "TypeError"
  else .ok (decide (p.1 < q.1))

/-- Insert into a descending-sorted prefix, comparing with `pyTupleLt`
(the element is placed before the first strictly smaller entry). -/
def orderedInsertDescM (x : ℚ × Alert) : List (ℚ × Alert) → Except String (List (ℚ × Alert))
  | [] => .ok [x]
  | y :: l => do
    let b ← pyTupleLt y x
    if b then .ok (x :: y :: l)
    else do
      let r ← orderedInsertDescM x l
      .ok (y :: r)

/-- `scored_alerts.sort(reverse=True)` as a stable descending insertion
sort over `pyTupleLt`.  The source uses timsort; both are stable
comparison sorts using the same element comparison, so they agree on the
result whenever no comparison raises, and both raise TypeError on a
two-element list of equal-score, unequal-dict tuples (the tie inputs used
below). -/
def sortDescM : List (ℚ × Alert) → Except String (List (ℚ × Alert))
  | [] => .ok []
  | x :: l => do
    let s ← sortDescM l
    orderedInsertDescM x s

/-- `_prioritize_alerts`: score each alert, sort the `(score, alert)`
tuples descending, and return the alerts of the sorted tuples. -/
def prioritize_alerts (service_criticality : List (String × ℚ)) (alerts : List Alert) :
    Except String (List Alert) := do
  let scored := alerts.map (fun a => (calculate_alert_priority service_criticality a, a))
  let sorted ← sortDescM scored
  .ok (sorted.map (fun p => p.2))

/-- The descending-score ordering on scored tuples used to describe the
sort result. -/
def scoreDescRel (p q : ℚ × Alert) : Prop := q.1 ≤ p.1

instance : DecidableRel scoreDescRel :=
  fun p q => inferInstanceAs (Decidable (q.1 ≤ p.1))

/-- Helper: binding a successful Except value applies the continuation. -/
theorem except_ok_bind {α β ε : Type} (a : α) (f : α → Except ε β) :
    (Except.ok a >>= f : Except ε β) = f a := rfl

/-- Helper: binding a failed Except value propagates the failure. -/
theorem except_error_bind {α β ε : Type} (e : ε) (f : α → Except ε β) :
    (Except.error e >>= f : Except ε β) = Except.error e := rfl

/-- Helper: when the inserted tuple's score differs from every score in
the list, no comparison raises and the monadic insert agrees with
`List.orderedInsert` under the descending-score ordering. -/
theorem orderedInsertDescM_ok (x : ℚ × Alert) (l : List (ℚ × Alert))
    (h : ∀ y ∈ l, y.1 ≠ x.1) :
    orderedInsertDescM x l = .ok (List.orderedInsert scoreDescRel x l) := by
  induction l with
  | nil => rfl
  | cons y l ih =>
    have hy : y.1 ≠ x.1 := h y (List.mem_cons_self y l)
    have hstep : pyTupleLt y x = .ok (decide (y.1 < x.1)) := by
      rw [pyTupleLt, if_neg hy]
    by_cases hlt : y.1 < x.1
    · have hrel : scoreDescRel x y := le_of_lt hlt
      simp [orderedInsertDescM, hstep, hlt, List.orderedInsert, if_pos hrel, except_ok_bind]
    · have hrel : ¬ scoreDescRel x y := fun hle => hlt (lt_of_le_of_ne hle hy)
      have ihh := ih (fun z hz => h z (List.mem_cons_of_mem y hz))
      simp [orderedInsertDescM, hstep, hlt, List.orderedInsert, if_neg hrel, ihh, except_ok_bind]

/-- Helper: with pairwise distinct scores the monadic sort agrees with
`List.insertionSort` under the descending-score ordering. -/
theorem sortDescM_ok (l : List (ℚ × Alert))
    (h : (l.map Prod.fst).Pairwise (fun x y => x ≠ y)) :
    sortDescM l = .ok (List.insertionSort scoreDescRel l) := by
  induction l with
  | nil => rfl
  | cons x l ih =>
    rw [List.map_cons, List.pairwise_cons] at h
    have ihh := ih h.2
    have hins := orderedInsertDescM_ok x (List.insertionSort scoreDescRel l)
      (fun y hy => by
        have hyl : y ∈ l := (List.mem_insertionSort scoreDescRel).mp hy
        exact (h.1 y.1 (List.mem_map_of_mem Prod.fst hyl)).symm)
    simp [sortDescM, ihh, hins, List.insertionSort, except_ok_bind]

instance : IsTotal (ℚ × Alert) scoreDescRel :=
  ⟨fun a b => le_total b.1 a.1⟩

instance : IsTrans (ℚ × Alert) scoreDescRel :=
  ⟨fun _ _ _ hab hbc => le_trans hbc hab⟩

/-- C4 amended: the computed score equals the claimed formula
severity weight times (1 + impact or 0) times (1 + min(frequency or 0
divided by 100, 1)) times the service criticality multiplier (default 1);
and when the scores of a batch are pairwise distinct the prioritizer
succeeds and returns a permutation of the input ordered descending by
score.  (On a score tie between alerts with different contents the
tuple sort raises TypeError instead of applying any fired_at
tie-break — see the counterexample.) -/
theorem prioritize_alerts_spec (crit : List (String × ℚ)) (alerts : List Alert)
    (hd : (alerts.map (calculate_alert_priority crit)).Pairwise (fun x y => x ≠ y)) :
    (∀ (a : Alert) (w : ℚ), severity_scores.lookup a.severity = some w →
      calculate_alert_priority crit a =
        w * (1 + a.impact_score.getD 0) * (1 + min (a.frequency.getD 0 / 100) 1) *
          (match a.service with
           | some s => (crit.lookup s).getD 1
           | none => 1)) ∧
    (∃ sorted : List Alert,
      prioritize_alerts crit alerts = .ok sorted ∧
      sorted.Perm alerts ∧
      (sorted.map (calculate_alert_priority crit)).Sorted (fun x y => y ≤ x)) := by
  constructor
  · intro a w hw
    have hmin : min ((0 : ℚ) / 100) 1 = 0 := by norm_num
    rcases a with ⟨sev, met, ser, imp, freq, fa, desc⟩
    cases imp <;> cases freq <;> cases ser <;>
      simp only [calculate_alert_priority, hw, Option.getD_some, Option.getD_none, hmin] <;>
      ring
  · have hd2 : ((alerts.map
        (fun a => (calculate_alert_priority crit a, a))).map Prod.fst).Pairwise
          (fun x y => x ≠ y) := by
      rw [List.map_map]
      simpa [Function.comp] using hd
    have hsort := sortDescM_ok _ hd2
    refine ⟨(List.insertionSort scoreDescRel
        (alerts.map (fun a => (calculate_alert_priority crit a, a)))).map (fun p => p.2),
      ?_, ?_, ?_⟩
    · simp [prioritize_alerts, hsort, except_ok_bind]
    · have hperm := (List.perm_insertionSort scoreDescRel
        (alerts.map (fun a => (calculate_alert_priority crit a, a)))).map
          (fun p : ℚ × Alert => p.2)
      rw [List.map_map] at hperm
      have hid : alerts.map
          ((fun p : ℚ × Alert => p.2) ∘ fun a => (calculate_alert_priority crit a, a)) =
          alerts := by
        rw [List.map_congr_left (fun a ha => rfl : ∀ a ∈ alerts,
          ((fun p : ℚ × Alert => p.2) ∘ fun b => (calculate_alert_priority crit b, b)) a = id a)]
        exact List.map_id alerts
      rw [hid] at hperm
      exact hperm
    · have hs := List.sorted_insertionSort scoreDescRel
        (alerts.map (fun a => (calculate_alert_priority crit a, a)))
      have hmem : ∀ p ∈ List.insertionSort scoreDescRel
          (alerts.map (fun a => (calculate_alert_priority crit a, a))),
          calculate_alert_priority crit p.2 = p.1 := by
        intro p hp
        obtain ⟨a, ha, hpa⟩ := List.mem_map.mp ((List.mem_insertionSort scoreDescRel).mp hp)
        rw [← hpa]
      have hmapeq : ((List.insertionSort scoreDescRel
          (alerts.map (fun a => (calculate_alert_priority crit a, a)))).map
            (fun p => p.2)).map (calculate_alert_priority crit) =
          (List.insertionSort scoreDescRel
            (alerts.map (fun a => (calculate_alert_priority crit a, a)))).map Prod.fst := by
        rw [List.map_map]
        exact List.map_congr_left (fun p hp => hmem p hp)
      rw [hmapeq]
      exact List.Pairwise.map Prod.fst (fun a b hab => hab) hs

/-- A critical-severity alert, score 1. -/
def alertHi : Alert :=
  { severity := "CRITICAL", metric := "m1", service := none, impact_score := none,
    frequency := none, fired_at := 1, description := "crit" }

/-- A low-severity alert, score 2/5. -/
def alertLo : Alert :=
  { severity := "LOW", metric := "m2", service := none, impact_score := none,
    frequency := none, fired_at := 2, description := "low" }

theorem prioritize_alerts_spec_witness :
    ∃ sorted : List Alert,
      prioritize_alerts [] [alertLo, alertHi] = .ok sorted ∧
      sorted.Perm [alertLo, alertHi] ∧
      (sorted.map (calculate_alert_priority [])).Sorted (fun x y => y ≤ x) := by
  have hlLo : severity_scores.lookup "LOW" = some (2/5) := rfl
  have hlHi : severity_scores.lookup "CRITICAL" = some 1 := rfl
  have hLo : calculate_alert_priority [] alertLo = 2/5 := by
    simp only [calculate_alert_priority, alertLo, hlLo, Option.getD_some]
  have hHi : calculate_alert_priority [] alertHi = 1 := by
    simp only [calculate_alert_priority, alertHi, hlHi, Option.getD_some]
  have hpair : (List.map (calculate_alert_priority []) [alertLo, alertHi]).Pairwise
      (fun x y => x ≠ y) := by
    rw [List.map_cons, List.map_cons, List.map_nil, hLo, hHi]
    norm_num [List.pairwise_cons]
  exact (prioritize_alerts_spec [] [alertLo, alertHi] hpair).2

/-- First alert of the score tie, fired earlier. -/
def alertT1 : Alert :=
  { severity := "HIGH", metric := "m", service := none, impact_score := none,
    frequency := none, fired_at := 1, description := "d" }

/-- Second alert of the score tie, fired later; only fired_at differs. -/
def alertT2 : Alert :=
  { severity := "HIGH", metric := "m", service := none, impact_score := none,
    frequency := none, fired_at := 2, description := "d" }

/-- C4 counterexample: two alerts with equal scores and different fired_at.
The claim requires the output ordered with the most recent first
([alertT2, alertT1]); the code's tuple sort compares the alert dicts on
the score tie and raises TypeError, so no fired_at tie-break exists. -/
theorem prioritize_tie_counterexample :
    (calculate_alert_priority [] alertT1 = calculate_alert_priority [] alertT2) ∧
    (alertT1.fired_at < alertT2.fired_at) ∧
    (prioritize_alerts [] [alertT1, alertT2] = .error "TypeError") ∧
    (prioritize_alerts [] [alertT1, alertT2] ≠ .ok [alertT2, alertT1]) := by
  have h3 : prioritize_alerts [] [alertT1, alertT2] = .error "TypeError" := by
    norm_num [prioritize_alerts, sortDescM, orderedInsertDescM, pyTupleLt, except_ok_bind,
      except_error_bind, calculate_alert_priority, alertT1, alertT2, severity_scores,
      List.lookup]
  refine ⟨by norm_num [calculate_alert_priority, alertT1, alertT2], 
    by norm_num [alertT1, alertT2], h3, ?_⟩
  rw [h3]
  exact fun hc => Except.noConfusion hc

/-- The deduplication key per the spec: (metric or pattern identity,
service, severity). -/
def dedupKey (a : Alert) : String × Option String × String :=
  (a.metric, a.service, a.severity)

/-- Modelled from the spec: `_deduplicate_alerts` is invoked by
`generate_alerts` but its definition is absent from the source tree.  Per
the spec, alerts are deduplicated by the key (metric or pattern identity,
service, severity) and within one batch only the first occurrence per key
is kept, in order of encounter. -/
def deduplicate_alerts : List Alert → List Alert
  | [] => []
  | a :: rest =>
    a :: deduplicate_alerts (rest.filter (fun b => decide (dedupKey b ≠ dedupKey a)))
termination_by l => l.length
decreasing_by
  simp only [List.length_cons]
  exact Nat.lt_succ_of_le (List.length_filter_le _ _)

/-- Helper: filtering by a predicate implied by the search predicate does
not change the result of `find?`. -/
theorem find?_filter_of_imp {α : Type} (l : List α) (q r : α → Bool)
    (h : ∀ b, q b = true → r b = true) :
    (l.filter r).find? q = l.find? q := by
  induction l with
  | nil => rfl
  | cons b l ih =>
    by_cases hr : r b = true
    · rw [List.filter_cons_of_pos hr]
      by_cases hq : q b = true
      · rw [List.find?_cons_of_pos _ hq, List.find?_cons_of_pos _ hq]
      · rw [List.find?_cons_of_neg _ hq, List.find?_cons_of_neg _ hq, ih]
    · rw [List.filter_cons_of_neg (by simpa using hr),
        List.find?_cons_of_neg _ (fun hq => hr (h b hq)), ih]

/-- C5: deduplication keeps a subsequence of the batch, and an alert is in
the output exactly when it is the first alert of the batch bearing its
(metric, service, severity) key — so each key yields exactly one output
event, the first encountered, regardless of differing fired_at values. -/
theorem deduplicate_alerts_spec (l : List Alert) :
    (deduplicate_alerts l).Sublist l ∧
    (∀ x : Alert, x ∈ deduplicate_alerts l ↔
      l.find? (fun b => decide (dedupKey b = dedupKey x)) = some x) := by
  induction l using deduplicate_alerts.induct with
  | case1 => simp [deduplicate_alerts]
  | case2 a rest ih =>
    rw [deduplicate_alerts]
    constructor
    · exact (ih.1.trans (List.filter_sublist rest)).cons₂ a
    · intro x
      by_cases hx : dedupKey x = dedupKey a
      · rw [List.find?_cons_of_pos _ (by simp [hx])]
        constructor
        · intro hmem
          rcases List.mem_cons.mp hmem with h1 | h2
          · rw [h1]
          · have hxf := ih.1.subset h2
            have := List.of_mem_filter hxf
            simp at this
            exact absurd hx (by simpa using this)
        · intro hfind
          have hax : a = x := by injection hfind
          rw [← hax]
          exact List.mem_cons_self a _
      · rw [List.find?_cons_of_neg _
            (by simp only [decide_eq_true_eq]; exact fun he => hx he.symm),
          ← find?_filter_of_imp rest (fun b => decide (dedupKey b = dedupKey x))
            (fun b => decide (dedupKey b ≠ dedupKey a))
            (fun b hb => by
              simp only [decide_eq_true_eq] at hb ⊢
              rw [hb]
              exact hx)]
        rw [List.mem_cons]
        constructor
        · rintro (h1 | h2)
          · exact absurd (by rw [h1]) hx
          · exact (ih.2 x).mp h2
        · intro hf
          exact Or.inr ((ih.2 x).mpr hf)
